import Mathlib

/-!
Verification of the SR5-FoundryVTT data-migration engine
(`src/module/migration.js`) against its natural-language specification.

The JavaScript source is shallowly embedded: migration functions that can
throw (`TypeError` on undefined field access, rejected host calls) are
modelled with `Except Unit`; JSON-like objects become Lean structures in
which an absent key is `Option.none`; dotted-path patch objects become
structures with one optional field per dotted path the rules can write.
-/

/-- The `specs` field of a skill entry: legacy shape is a string, migrated
shape is an array of strings (`Array.isArray` discriminates). -/
inductive Specs where
  | str (s : String)
  | arr (a : List String)
deriving DecidableEq, Repr

/-- One skill entry inside a skill group (only its `specs` field matters to
the migration). -/
structure SkillEntry where
  specs : Specs
deriving DecidableEq, Repr

/-- A skill group: an ordered string-keyed object of skill entries
(`Object.entries` enumerates keys in insertion order). -/
abbrev SkillGroup := List (String × SkillEntry)

/-- The six skill groups read by `_migrateActorSkills`.  Each is optional:
`none` models the group (or one of the objects on its path) being absent
from the actor's data, in which case the JS property access throws. -/
structure SkillsData where
  active : Option SkillGroup                -- data.skills.active
  knowledgeStreet : Option SkillGroup       -- data.skills.knowledge.street.value
  knowledgeProfessional : Option SkillGroup -- data.skills.knowledge.professional.value
  knowledgeAcademic : Option SkillGroup     -- data.skills.knowledge.academic.value
  knowledgeInterests : Option SkillGroup    -- data.skills.knowledge.interests.value
  language : Option SkillGroup              -- data.skills.language.value
deriving DecidableEq, Repr

/-- The value found at `track.physical.overflow`: a bare number (legacy),
an object with optional `value`/`max` keys (migrated), or absent
(`getProperty` then yields `undefined`). -/
inductive Overflow where
  | num (n : Int)
  | obj (value : Option Int) (max : Option Int)
  | missing
deriving DecidableEq, Repr

/-- The inner `data` bag of an Actor document, restricted to the paths the
migration reads. -/
structure ActorData where
  overflow : Overflow -- track.physical.overflow
  skills : SkillsData
deriving DecidableEq, Repr

/-- `limit` sub-object of the default action block. -/
structure ActionLimit where
  value : Int
  attr : String -- JS key "attribute"
deriving DecidableEq, Repr

/-- `damage.ap` sub-object of the default action block. -/
structure ActionAp where
  value : Int
deriving DecidableEq, Repr

/-- `damage` sub-object of the default action block. -/
structure ActionDamage where
  type : String
  element : String
  value : Int
  ap : ActionAp
  attr : String -- JS key "attribute"
deriving DecidableEq, Repr

/-- `opposed` sub-object of the default action block. -/
structure ActionOpposed where
  type : String
  attr : String -- JS key "attribute"
  attr2 : String -- JS key "attribute2"
  skill : String
  mod : Int
  description : String
deriving DecidableEq, Repr

/-- An action sub-document, as inserted by `_migrateItemsAddActions`. -/
structure ActionData where
  type : String
  category : String
  attr : String -- JS key "attribute"
  attr2 : String -- JS key "attribute2"
  skill : String
  spec : Bool
  mod : Int
  limit : ActionLimit
  extended : Bool
  damage : ActionDamage
  opposed : ActionOpposed
deriving DecidableEq, Repr

/-- The inner `data` bag of an Item document, restricted to the fields the
migration reads (`action` and `capacity`; `none` models `undefined`). -/
structure ItemData where
  action : Option ActionData
  capacity : Option Int
deriving DecidableEq, Repr

/-- An Item document's data (`i.data` in `migrateWorld`, or one element of
`actor.items`): a duck-typed `type` discriminator plus the inner bag. -/
structure Item where
  type : String
  data : ItemData
deriving DecidableEq, Repr

/-- An Actor document's data (`a.data` in `migrateWorld`, or a token's
`actorData` override): inner bag plus optional owned-items array
(`!actor.items` short-circuits when the array is absent). -/
structure Actor where
  data : ActorData
  items : Option (List Item)
deriving DecidableEq, Repr

/-- The `data` sub-object of an item update (`updateData.data`). -/
structure ItemPatchData where
  action : Option ActionData
  capacity : Option Int
deriving DecidableEq, Repr

/-- An item update object.  `data = none` models `updateData` without a
`data` key: `_migrateItemsAddActions` creates the key on demand, while
`_migrateItemsAddCapacity` assumes it already exists. -/
structure ItemPatch where
  data : Option ItemPatchData
deriving DecidableEq, Repr

/-- `isObjectEmpty(updateData)` for an item update: the object is empty
exactly when the `data` key was never created. -/
def ItemPatch.isEmpty (p : ItemPatch) : Bool :=
  p.data.isNone

/-- A skill-group patch value: the object built by the reducer, mapping a
skill key to an object carrying only the replacement `specs` array. -/
abbrev GroupPatch := List (String × List String)

/-- An actor update object.  Each field is one dotted-path key the actor
rules can write (`none` = key absent). -/
structure ActorPatch where
  overflowValue : Option Int -- 'data.track.physical.overflow.value'
  overflowMax : Option Int -- 'data.track.physical.overflow.max'
  active : Option GroupPatch -- 'data.skills.active'
  knowledgeStreet : Option GroupPatch -- 'data.skills.knowledge.street.value'
  knowledgeProfessional : Option GroupPatch -- 'data.skills.knowledge.professional.value'
  knowledgeAcademic : Option GroupPatch -- 'data.skills.knowledge.academic.value'
  knowledgeInterests : Option GroupPatch -- 'data.skills.knowledge.interests.value'
  language : Option GroupPatch -- 'data.skills.language.value'
  items : Option (List Item) -- 'items'
deriving DecidableEq, Repr

/-- The empty actor update object `{}`. -/
def emptyActorPatch : ActorPatch :=
  ⟨none, none, none, none, none, none, none, none, none⟩

/-- `isObjectEmpty(updateData)` for an actor update: no key present. -/
def ActorPatch.isEmpty (p : ActorPatch) : Bool :=
  p.overflowValue.isNone && p.overflowMax.isNone && p.active.isNone &&
  p.knowledgeStreet.isNone && p.knowledgeProfessional.isNone &&
  p.knowledgeAcademic.isNone && p.knowledgeInterests.isNone &&
  p.language.isNone && p.items.isNone

/-- The delimiter class of the split regex `[,\/|.]+`. -/
def isDelim (c : Char) : Bool :=
  c = ',' || c = '/' || c = '|' || c = '.'

/-- `String.prototype.split` on the regex `[,\/|.]+`: the string is cut at
every maximal run of delimiter characters (`prevDelim` records whether the
previous character belonged to the current run, so adjacent delimiters
produce a single cut).  Like the JS original this keeps empty tokens that
arise from leading or trailing delimiters. -/
def splitRegexAux (prevDelim : Bool) (acc : List Char) : List Char → List String
  | [] => [String.mk acc.reverse]
  | c :: cs =>
    if isDelim c then
      if prevDelim then splitRegexAux true acc cs
      else String.mk acc.reverse :: splitRegexAux true [] cs
    else splitRegexAux false (c :: acc) cs

/-- `val.specs.split(/[,\/|.]+/)`. -/
def splitRegex (s : String) : List String :=
  splitRegexAux false [] s.data

/-- `val.specs.split(/[,\/|.]+/).filter(s => s !== '')`: the full
legacy-string transform of `_migrateActorSkills`. -/
def splitSpecs (s : String) : List String :=
  (splitRegex s).filter (· ≠ "")

/-- The reducer of `_migrateActorSkills`, folded over `Object.entries` of a
skill group: an entry whose `specs` is not an array is written into the
accumulator as `{specs: split}`, an entry whose `specs` is already an array
is skipped. -/
def skillsReducer (g : SkillGroup) : GroupPatch :=
  g.filterMap fun kv =>
    match kv.2.specs with
    | .arr _ => none
    | .str s => some (kv.1, splitSpecs s)

/-- `_migrateActorOverflow`: when `getProperty(actor.data,
'track.physical.overflow') === 0`, write the two scalar expansion keys. -/
def _migrateActorOverflow (actor : Actor) (updateData : ActorPatch) : ActorPatch :=
  if actor.data.overflow = .num 0 then
    { updateData with overflowValue := some 0, overflowMax := some 0 }
  else updateData

/-- `_migrateActorSkills`: unconditionally assign all six skill-group keys
of the update object to the reduced group.  Accessing an absent group
throws a `TypeError` in JS, modelled by `Except.error`. -/
def _migrateActorSkills (actor : Actor) (updateData : ActorPatch) :
    Except Unit ActorPatch := do
  let sk := actor.data.skills
  match sk.active, sk.knowledgeStreet, sk.knowledgeProfessional,
      sk.knowledgeAcademic, sk.knowledgeInterests, sk.language with
  | some a, some st, some pr, some ac, some int, some la =>
    return { updateData with
      active := some (skillsReducer a)
      knowledgeStreet := some (skillsReducer st)
      knowledgeProfessional := some (skillsReducer pr)
      knowledgeAcademic := some (skillsReducer ac)
      knowledgeInterests := some (skillsReducer int)
      language := some (skillsReducer la) }
  | _, _, _, _, _, _ => .error ()

/-- The default action block literal of `_migrateItemsAddActions`
(JS keys "attribute"/"attribute2" are the `attr`/`attr2` fields). -/
def defaultAction : ActionData :=
  { type := "", category := "", attr := "", attr2 := "", skill := ""
    spec := false, mod := 0
    limit := { value := 0, attr := "" }
    extended := false
    damage := { type := "", element := "", value := 0, ap := { value := 0 }, attr := "" }
    opposed := { type := "", attr := "", attr2 := "", skill := "", mod := 0, description := "" } }

/-- `_migrateItemsAddActions`: for a "quality" or "cyberware" item with no
`data.action`, create `updateData.data` if needed and set its `action` to
the default block. -/
def _migrateItemsAddActions (item : Item) (updateData : ItemPatch) : ItemPatch :=
  if item.type ∈ ["quality", "cyberware"] then
    if item.data.action = none then
      let d := updateData.data.getD ⟨none, none⟩
      { data := some { d with action := some defaultAction } }
    else updateData
  else updateData

/-- `_migrateItemsAddCapacity`: for a "cyberware" item with no
`data.capacity`, set `updateData.data.capacity = 0`.  Unlike the action
rule it never creates `updateData.data`, so when that key is absent the JS
assignment throws a `TypeError`, modelled by `Except.error`. -/
def _migrateItemsAddCapacity (item : Item) (updateData : ItemPatch) :
    Except Unit ItemPatch :=
  if item.type ∈ ["cyberware"] then
    if item.data.capacity = none then
      match updateData.data with
      | none => .error ()
      | some d => .ok { data := some { d with capacity := some 0 } }
    else .ok updateData
  else .ok updateData

/-- `migrateItemData`: run the action rule then the capacity rule on a
fresh update object and return it. -/
def migrateItemData (item : Item) : Except Unit ItemPatch := do
  let updateData : ItemPatch := ⟨none⟩
  let updateData := _migrateItemsAddActions item updateData
  _migrateItemsAddCapacity item updateData

/-- `mergeObject` of an item's inner `data` with the patch's `data`
sub-object: patch keys override, other keys pass through. -/
def ItemData.merge (d : ItemData) (pd : ItemPatchData) : ItemData :=
  { action := if pd.action.isSome then pd.action else d.action
    capacity := if pd.capacity.isSome then pd.capacity else d.capacity }

/-- `mergeObject(i, itemUpdate, {inplace: false})`: a copy of the item with
the update's fields merged in recursively. -/
def Item.merge (i : Item) (p : ItemPatch) : Item :=
  match p.data with
  | none => i
  | some pd => { i with data := i.data.merge pd }

/-- The body of the `actor.items.map` callback in `migrateActorData`:
migrate one owned item, returning the (possibly merged) item and whether it
changed.  An exception from `migrateItemData` propagates. -/
def migrateOwnedItem (i : Item) : Except Unit (Item × Bool) := do
  let itemUpdate ← migrateItemData i
  if itemUpdate.isEmpty then return (i, false)
  else return (i.merge itemUpdate, true)

/-- `actor.items.map(...)` plus the `hasItemUpdates` flag. -/
def migrateOwnedItems (its : List Item) : Except Unit (List Item × Bool) := do
  let pairs ← its.mapM migrateOwnedItem
  return (pairs.map Prod.fst, pairs.any Prod.snd)

/-- `migrateActorData`: overflow rule, skills rule, then the owned-items
pass; the `items` key is written only when some owned item changed. -/
def migrateActorData (actor : Actor) : Except Unit ActorPatch := do
  let updateData := _migrateActorOverflow actor emptyActorPatch
  let updateData ← _migrateActorSkills actor updateData
  match actor.items with
  | none => return updateData
  | some its =>
    let (items, hasItemUpdates) ← migrateOwnedItems its
    if hasItemUpdates then return { updateData with items := some items }
    else return updateData

/-- `mergeObject` of a skill group with a group patch (the host expands the
dotted key and merges recursively): each original key that the patch
mentions gets its entry's `specs` replaced by the patch array, keys the
patch does not mention pass through, and patch keys absent from the
original are appended. -/
def mergeGroup (orig : SkillGroup) (patch : GroupPatch) : SkillGroup :=
  (orig.map fun kv =>
    match patch.lookup kv.1 with
    | some a => (kv.1, SkillEntry.mk (Specs.arr a))
    | none => kv)
  ++ (patch.filter fun ka => (orig.lookup ka.1).isNone).map
      (fun ka => (ka.1, SkillEntry.mk (Specs.arr ka.2)))

/-- Merging the two expanded overflow keys into the stored overflow value:
no keys written leaves it alone; otherwise an existing object is merged
per key, and a non-object (bare number or absent) is overwritten by the
expanded object. -/
def Overflow.applyPatch (o : Overflow) (v m : Option Int) : Overflow :=
  match v, m with
  | none, none => o
  | _, _ =>
    match o with
    | .obj ov om => .obj (if v.isSome then v else ov) (if m.isSome then m else om)
    | _ => .obj v m

/-- Merging an optional skill-group patch into an optional stored group. -/
def applyGroupPatch (orig : Option SkillGroup) (patch : Option GroupPatch) :
    Option SkillGroup :=
  match patch with
  | none => orig
  | some p => some (mergeGroup (orig.getD []) p)

/-- Applying an actor update object to an actor's data: the host expands
each dotted-path key and merges (`a.update` in `migrateWorld`,
`mergeObject(token.data.actorData, updateData)` in `migrateSceneData`).
The `items` array, when present, replaces the owned list wholesale. -/
def Actor.applyPatch (a : Actor) (p : ActorPatch) : Actor :=
  { data :=
      { overflow := a.data.overflow.applyPatch p.overflowValue p.overflowMax
        skills :=
          { active := applyGroupPatch a.data.skills.active p.active
            knowledgeStreet := applyGroupPatch a.data.skills.knowledgeStreet p.knowledgeStreet
            knowledgeProfessional :=
              applyGroupPatch a.data.skills.knowledgeProfessional p.knowledgeProfessional
            knowledgeAcademic := applyGroupPatch a.data.skills.knowledgeAcademic p.knowledgeAcademic
            knowledgeInterests := applyGroupPatch a.data.skills.knowledgeInterests p.knowledgeInterests
            language := applyGroupPatch a.data.skills.language p.language } }
    items := match p.items with | some l => some l | none => a.items }

/-- Applying an item update object to an item's data. -/
def Item.applyPatch (i : Item) (p : ItemPatch) : Item :=
  i.merge p

/-- A token placement inside a scene.  `actorData = none` models an
override object without a truthy `data` key (`!t.actorData.data`);
`actorResolvable` models whether `new Token(t).actor` finds the token's
backing Actor in the host's registry. -/
structure Token where
  actorId : Option String
  actorLink : Bool
  actorData : Option Actor
  actorResolvable : Bool
deriving DecidableEq, Repr

/-- The `tokens.map` callback of `migrateSceneData`.  The three guards
`!t.actorId || t.actorLink || !t.actorData.data` all clear the override
and return the token (checking `actorData` first is observationally the
same, the guards being side-effect free); an unresolvable backing actor
clears `actorId` and the override; otherwise (the JS `!t.actorLink` test
is necessarily true here) the override is migrated as a partial Actor and
the update merged into it.  A throw from `migrateActorData` propagates. -/
def migrateToken (t : Token) : Except Unit Token :=
  match t.actorData with
  | none => .ok { t with actorData := none }
  | some ov =>
    if t.actorId.isNone || t.actorLink then .ok { t with actorData := none }
    else if !t.actorResolvable then .ok { t with actorId := none, actorData := none }
    else do
      let updateData ← migrateActorData ov
      return { t with actorData := some (ov.applyPatch updateData) }

/-- A Scene document's data, restricted to its token list. -/
structure Scene where
  tokens : List Token
deriving DecidableEq, Repr

/-- The update object returned by `migrateSceneData`: it always carries the
`tokens` key. -/
structure ScenePatch where
  tokens : List Token
deriving DecidableEq, Repr

/-- `isObjectEmpty` on a scene update: always false, because the returned
object literal always contains the `tokens` key. -/
def ScenePatch.isEmpty (_ : ScenePatch) : Bool :=
  false

/-- `migrateSceneData`: map the token migration over a (deep copy of the)
token list and return `{tokens: ...}`. -/
def migrateSceneData (scene : Scene) : Except Unit ScenePatch := do
  let tokens ← scene.tokens.mapM migrateToken
  return { tokens := tokens }

/-- Applying a scene update: the `tokens` key replaces the embedded token
list wholesale. -/
def Scene.applyPatch (s : Scene) (p : ScenePatch) : Scene :=
  { s with tokens := p.tokens }

/-- A world-owned document as the orchestrator sees it: a display name, its
migratable data, and whether the host's `update` call for it resolves
(`false` models a rejected update, caught by the per-entity handler). -/
structure WDoc (α : Type) where
  name : String
  data : α
  updateOk : Bool
deriving DecidableEq, Repr

/-- One phase of `migrateWorld` (the three world loops share this shape):
for each document in order, compute the update inside the per-entity
`try`; on a throw, log and continue; on a non-empty update, perform the
update call, which itself may reject and be caught.  Returns the names of
the documents whose update call succeeded, in order. -/
def migratePhase {α π : Type} (migrate : α → Except Unit π) (isEmpty : π → Bool) :
    List (WDoc α) → List String
  | [] => []
  | d :: rest =>
    (match migrate d.data with
     | .error _ => []
     | .ok u => if isEmpty u then [] else if d.updateOk then [d.name] else [])
    ++ migratePhase migrate isEmpty rest

/-- The data of one compendium entry (a compendium holds entities of the
kind its metadata announces). -/
inductive EntData where
  | actorD (a : Actor)
  | itemD (i : Item)
  | sceneD (s : Scene)
deriving DecidableEq, Repr

/-- An update object of either kind, as dispatched on `pack.metadata.entity`. -/
inductive GenPatch where
  | actorP (p : ActorPatch)
  | itemP (p : ItemPatch)
  | sceneP (p : ScenePatch)
deriving DecidableEq, Repr

/-- `isObjectEmpty` lifted over the three update-object kinds. -/
def GenPatch.isEmpty : GenPatch → Bool
  | .actorP p => p.isEmpty
  | .itemP p => p.isEmpty
  | .sceneP p => p.isEmpty

/-- One entry of a compendium pack: id-bearing document plus whether
`pack.updateEntity` resolves for it. -/
structure PackEntry where
  name : String
  data : EntData
  updateOk : Bool
deriving DecidableEq, Repr

/-- A compendium pack: its metadata (`package` owner, `entity` kind),
whether its server-side `migrate()` and `getContent()` calls resolve, and
its content. -/
structure Pack where
  collection : String
  package : String
  entity : String
  migrateOk : Bool
  getContentOk : Bool
  content : List PackEntry
deriving DecidableEq, Repr

/-- The `entity`-dispatched update computation of `migrateCompendium`.  A
kind mismatch between the pack's metadata and an entry cannot occur for a
well-formed pack and is modelled as a throw. -/
def compendiumEntityPatch (entity : String) (d : EntData) : Except Unit GenPatch :=
  if entity = "Item" then
    match d with
    | .itemD i => (migrateItemData i).map .itemP
    | _ => .error ()
  else if entity = "Actor" then
    match d with
    | .actorD a => (migrateActorData a).map .actorP
    | _ => .error ()
  else if entity = "Scene" then
    match d with
    | .sceneD s => (migrateSceneData s).map .sceneP
    | _ => .error ()
  else .error ()

/-- The per-entry loop of `migrateCompendium`: each iteration's body is
wrapped in its own `try`, so a throw while computing the update or a
rejected `pack.updateEntity` call is logged and the loop continues.
Returns the names of the entries whose update call succeeded, in order. -/
def migrateCompendiumContent (entity : String) : List PackEntry → List String
  | [] => []
  | ent :: rest =>
    (match compendiumEntityPatch entity ent.data with
     | .error _ => []
     | .ok u => if u.isEmpty then [] else if ent.updateOk then [ent.name] else [])
    ++ migrateCompendiumContent entity rest

/-- `migrateCompendium`: packs of an unknown kind are skipped; then the
bundle-level `pack.migrate()` and `pack.getContent()` calls run *outside*
any `try`, so their rejection propagates to the caller; finally the
per-entry loop runs.  Returns the names of entries updated. -/
def migrateCompendium (pack : Pack) : Except Unit (List String) :=
  if (["Actor", "Item", "Scene"].contains pack.entity) = false then .ok []
  else do
    if pack.migrateOk then pure () else .error ()
    if pack.getContentOk then pure () else .error ()
    return migrateCompendiumContent pack.entity pack.content

/-- The pack loop of `migrateWorld`: `await migrateCompendium(p)` is not
wrapped in a `try`, so the first pack whose bundle-level call rejects
aborts the loop (and everything after it in `migrateWorld`).  Returns the
updated entry names and whether the loop ran to completion. -/
def migrateWorldPacks : List Pack → List String × Bool
  | [] => ([], true)
  | p :: rest =>
    match migrateCompendium p with
    | .error _ => ([], false)
    | .ok applied =>
      let r := migrateWorldPacks rest
      (applied ++ r.1, r.2)

/-- Everything `migrateWorld` iterates over. -/
structure World where
  actors : List (WDoc Actor)
  items : List (WDoc Item)
  scenes : List (WDoc Scene)
  packs : List Pack
deriving DecidableEq, Repr

/-- `migrateWorld`: the three world phases in order, then the filtered pack
loop.  Result: the names of all documents whose update call succeeded, in
processing order, and whether the run completed (reaching the
`systemMigrationVersion` write) rather than dying on an uncaught
bundle-level rejection. -/
def migrateWorld (w : World) : List String × Bool :=
  let a := migratePhase migrateActorData ActorPatch.isEmpty w.actors
  let i := migratePhase migrateItemData ItemPatch.isEmpty w.items
  let s := migratePhase migrateSceneData ScenePatch.isEmpty w.scenes
  let packs := w.packs.filter fun p =>
    p.package == "world" && ["Actor", "Item", "Scene"].contains p.entity
  let r := migrateWorldPacks packs
  (a ++ i ++ s ++ r.1, r.2)

/-- `Array.isArray(val.specs)`. -/
def Specs.isArr : Specs → Bool
  | .arr _ => true
  | .str _ => false

/-- The actor update object produced by a second migration run: only the
six unconditional skill-group keys, each mapping to the empty object. -/
def noopActorPatch : ActorPatch :=
  { emptyActorPatch with
    active := some [], knowledgeStreet := some [], knowledgeProfessional := some []
    knowledgeAcademic := some [], knowledgeInterests := some [], language := some [] }

/-- The default action sub-document literal exactly as printed in the
specification (§6), for comparison with the source literal. -/
def specActionLiteral : ActionData :=
  { type := "", category := "", attr := "", attr2 := "", skill := ""
    spec := false, mod := 0
    limit := { value := 0, attr := "" }
    extended := false
    damage := { type := "", element := "", value := 0, ap := { value := 0 }, attr := "" }
    opposed := { type := "", attr := "", attr2 := "", skill := "", mod := 0, description := "" } }

/-- Skills data whose six groups are all present and empty. -/
def emptySkills : SkillsData :=
  ⟨some [], some [], some [], some [], some [], some []⟩

/-- A legacy cyberware item missing both `action` and `capacity`. -/
def cyberBoth : Item := ⟨"cyberware", ⟨none, none⟩⟩

/-- A cyberware item whose `action` is present but whose `capacity` is
`undefined`: the input on which the capacity rule crashes. -/
def cyberActionOnly : Item := ⟨"cyberware", ⟨some defaultAction, none⟩⟩

/-- A cyberware item with `capacity: 4` and no `action`. -/
def cyberCap4 : Item := ⟨"cyberware", ⟨none, some 4⟩⟩

/-- A legacy quality item with no `action`. -/
def qualityStale : Item := ⟨"quality", ⟨none, none⟩⟩

/-- The quality item after migration: default action block merged in. -/
def qualityMigrated : Item := ⟨"quality", ⟨some defaultAction, none⟩⟩

/-- A weapon item; no item rule applies to it. -/
def weaponBare : Item := ⟨"weapon", ⟨none, none⟩⟩

/-- A skill group holding one already-migrated entry and one legacy
entry. -/
def groupDrop : SkillGroup :=
  [("rifles", ⟨.arr ["x"]⟩), ("pistols", ⟨.str "y"⟩)]

/-- An actor whose `active` group is `groupDrop`. -/
def actorDrop : Actor :=
  ⟨⟨.missing, ⟨some groupDrop, some [], some [], some [], some [], some []⟩⟩, none⟩

/-- An actor with legacy overflow `track.physical.overflow = 0`. -/
def actorNum0 : Actor := ⟨⟨.num 0, emptySkills⟩, none⟩

/-- An actor with migrated overflow `{value: 3, max: 5}`. -/
def actorObj35 : Actor := ⟨⟨.obj (some 3) (some 5), emptySkills⟩, none⟩

/-- A partial actor whose `data.skills.active` group is entirely absent. -/
def actorNoActive : Actor :=
  ⟨⟨.missing, ⟨none, some [], some [], some [], some [], some []⟩⟩, none⟩

/-- An actor exercising every actor rule: legacy overflow, a group with one
legacy and one migrated entry, one stale owned item and one item needing no
migration. -/
def actorRich : Actor :=
  ⟨⟨.num 0,
    ⟨some [("pistols", ⟨.str "a, b"⟩), ("rifles", ⟨.arr ["x"]⟩)],
     some [], some [], some [], some [], some []⟩⟩,
   some [qualityStale, weaponBare]⟩

/-- The update object `migrateActorData` computes for `actorRich`. -/
def actorRichPatch : ActorPatch :=
  { overflowValue := some 0, overflowMax := some 0
    active := some [("pistols", ["a", " b"])]
    knowledgeStreet := some [], knowledgeProfessional := some []
    knowledgeAcademic := some [], knowledgeInterests := some []
    language := some []
    items := some [qualityMigrated, weaponBare] }

/-- World actor docs for the fault-isolation scenario: a valid actor, a
poisoned one (its skills rule throws), and another valid one. -/
def wdocA1 : WDoc Actor := ⟨"A1", actorNum0, true⟩

/-- The poisoned middle document of the fault-isolation scenario. -/
def wdocBadActor : WDoc Actor := ⟨"A2", actorNoActive, true⟩

/-- The third document of the fault-isolation scenario. -/
def wdocA3 : WDoc Actor := ⟨"A3", actorRich, true⟩

/-- A world-owned Item pack whose bundle-level `migrate()` call rejects. -/
def packBad : Pack :=
  ⟨"world.pack1", "world", "Item", false, true, [⟨"E1", .itemD cyberBoth, true⟩]⟩

/-- A healthy world-owned Item pack holding one entry needing migration. -/
def packGood : Pack :=
  ⟨"world.pack2", "world", "Item", true, true, [⟨"E2", .itemD cyberBoth, true⟩]⟩

/-- A world whose compendium phase hits `packBad` before `packGood`. -/
def worldC2 : World := ⟨[], [], [], [packBad, packGood]⟩

/-- The update object `_migrateActorSkills` computes for `actorDrop`: the
`active` patch object retains only the legacy key. -/
def actorDropSkillsPatch : ActorPatch :=
  { emptyActorPatch with
    active := some [("pistols", ["y"])]
    knowledgeStreet := some [], knowledgeProfessional := some []
    knowledgeAcademic := some [], knowledgeInterests := some []
    language := some [] }

/-- C7: for every Actor whose `track.physical.overflow` equals the bare
number 0, the overflow rule writes `track.physical.overflow.value = 0` and
`track.physical.overflow.max = 0` into the patch; for every Actor whose
overflow already has the migrated object shape the rule contributes
nothing (it returns the update object unchanged). -/
theorem overflow_rule_correct :
    (∀ (actor : Actor) (u : ActorPatch), actor.data.overflow = .num 0 →
      (_migrateActorOverflow actor u).overflowValue = some 0 ∧
      (_migrateActorOverflow actor u).overflowMax = some 0) ∧
    (∀ (actor : Actor) (u : ActorPatch) (v m : Option Int),
      actor.data.overflow = .obj v m → _migrateActorOverflow actor u = u) := by
  constructor
  · intro actor u h
    simp [_migrateActorOverflow, h]
  · intro actor u v m h
    simp [_migrateActorOverflow, h]

/-- Witness for C7 at `track.physical.overflow = 0` and at
`{value: 3, max: 5}`. -/
theorem overflow_rule_correct_witness :
    (_migrateActorOverflow actorNum0 emptyActorPatch).overflowValue = some 0 ∧
    (_migrateActorOverflow actorNum0 emptyActorPatch).overflowMax = some 0 ∧
    _migrateActorOverflow actorObj35 emptyActorPatch = emptyActorPatch :=
  ⟨(overflow_rule_correct.1 actorNum0 emptyActorPatch rfl).1,
   (overflow_rule_correct.1 actorNum0 emptyActorPatch rfl).2,
   overflow_rule_correct.2 actorObj35 emptyActorPatch (some 3) (some 5) rfl⟩

/-- C4 (code bug): on a cyberware item whose `data.action` is present but
whose `data.capacity` is undefined, `migrateItemData` does not return the
patch `{data.capacity: 0}` the claim describes — the capacity rule throws,
because it assigns through `updateData.data` without ever creating that
sub-object (only the action rule creates it). -/
theorem capacity_rule_crashes :
    migrateItemData cyberActionOnly = .error () ∧
    _migrateItemsAddCapacity cyberActionOnly ⟨none⟩ = .error () :=
  ⟨rfl, rfl⟩

/-- C3 counterexample: on a cyberware item missing both `action` and
`capacity`, running the capacity rule before the action rule throws, while
the source's order (action rule first) produces the full merged patch —
the two orders do not produce the same merged patch. -/
theorem capacity_action_order_dependent :
    (_migrateItemsAddCapacity cyberBoth ⟨none⟩).map (_migrateItemsAddActions cyberBoth) =
      .error () ∧
    _migrateItemsAddCapacity cyberBoth (_migrateItemsAddActions cyberBoth ⟨none⟩) =
      .ok ⟨some ⟨some defaultAction, some 0⟩⟩ :=
  ⟨rfl, rfl⟩

/-- C3 amended: the two item rules read only the item data and the update
object passed to them, but they are order-independent only when the
capacity rule does not fire: for every item that is not a cyberware item
with undefined capacity, both orders produce the same merged patch (the
action rule's output alone). -/
theorem item_rules_order_when_capacity_silent (i : Item)
    (h : i.type = "cyberware" → i.data.capacity ≠ none) :
    (_migrateItemsAddCapacity i ⟨none⟩).map (_migrateItemsAddActions i) =
      .ok (_migrateItemsAddActions i ⟨none⟩) ∧
    _migrateItemsAddCapacity i (_migrateItemsAddActions i ⟨none⟩) =
      .ok (_migrateItemsAddActions i ⟨none⟩) := by
  have hid : ∀ u : ItemPatch, _migrateItemsAddCapacity i u = .ok u := by
    intro u
    unfold _migrateItemsAddCapacity
    by_cases ht : i.type ∈ (["cyberware"] : List String)
    · have hc : ¬ i.data.capacity = none := h (by simpa using ht)
      rw [if_pos ht, if_neg hc]
    · rw [if_neg ht]
  refine ⟨?_, hid _⟩
  rw [hid ⟨none⟩]
  rfl

/-- Witness for the amended C3 at a cyberware item with `capacity: 4`. -/
theorem item_rules_order_witness :
    (_migrateItemsAddCapacity cyberCap4 ⟨none⟩).map (_migrateItemsAddActions cyberCap4) =
      .ok (_migrateItemsAddActions cyberCap4 ⟨none⟩) ∧
    _migrateItemsAddCapacity cyberCap4 (_migrateItemsAddActions cyberCap4 ⟨none⟩) =
      .ok (_migrateItemsAddActions cyberCap4 ⟨none⟩) :=
  item_rules_order_when_capacity_silent cyberCap4 (by decide)

/-- C10: for every Actor missing any of the six skill groups the skills
rule reads, `migrateActorData` throws (fails fast) instead of skipping the
absent group. -/
theorem missing_skill_group_throws (actor : Actor)
    (h : actor.data.skills.active = none ∨ actor.data.skills.knowledgeStreet = none ∨
         actor.data.skills.knowledgeProfessional = none ∨
         actor.data.skills.knowledgeAcademic = none ∨
         actor.data.skills.knowledgeInterests = none ∨
         actor.data.skills.language = none) :
    migrateActorData actor = .error () := by
  obtain ⟨⟨ov, g1, g2, g3, g4, g5, g6⟩, its⟩ := actor
  have hsk : ∀ u, _migrateActorSkills ⟨⟨ov, g1, g2, g3, g4, g5, g6⟩, its⟩ u = .error () := by
    intro u
    cases g1 <;> cases g2 <;> cases g3 <;> cases g4 <;> cases g5 <;> cases g6 <;>
      simp_all [_migrateActorSkills]
  show (_migrateActorSkills _ (_migrateActorOverflow _ emptyActorPatch) >>= fun u =>
    match (⟨⟨ov, g1, g2, g3, g4, g5, g6⟩, its⟩ : Actor).items with
    | none => pure u
    | some its => do
      let r ← migrateOwnedItems its
      if r.2 then pure { u with items := some r.1 } else pure u) = .error ()
  rw [hsk]
  rfl

/-- Witness for C10 at a partial actor with no `active` group. -/
theorem missing_skill_group_throws_witness :
    migrateActorData actorNoActive = .error () :=
  missing_skill_group_throws actorNoActive (Or.inl rfl)

/-- C6 counterexample: the split does not trim tokens — on the
specification's own example string the second token keeps its leading
space. -/
theorem split_does_not_trim :
    splitSpecs "Pistols, Pistols/Light" = ["Pistols", " Pistols", "Light"] ∧
    splitSpecs "Pistols, Pistols/Light" ≠ ["Pistols", "Pistols", "Light"] := by
  exact ⟨rfl, by decide⟩

/-- A key that is present in an association list has a `lookup` result. -/
theorem lookup_isSome_of_mem {β : Type} (l : List (String × β)) (k : String) (v : β)
    (h : (k, v) ∈ l) : (l.lookup k).isSome = true := by
  induction l with
  | nil => cases h
  | cons kv t ih =>
    rcases List.mem_cons.mp h with h | h
    · rw [← h]
      simp [List.lookup]
    · by_cases hk : k == kv.1
      · simp [List.lookup, hk]
      · simp only [List.lookup, hk]
        exact ih h

/-- A key absent from an association list's key sequence has no `lookup`
result. -/
theorem lookup_eq_none_of_not_mem {β : Type} (l : List (String × β)) (k : String)
    (h : k ∉ l.map Prod.fst) : l.lookup k = none := by
  induction l with
  | nil => rfl
  | cons kv t ih =>
    simp only [List.map_cons, List.mem_cons] at h
    push_neg at h
    have hk : (k == kv.1) = false := by
      simpa using h.1
    simp only [List.lookup, hk]
    exact ih h.2

/-- Under distinct keys, a key determines its association-list entry. -/
theorem mem_unique_of_nodup_keys {β : Type} (l : List (String × β))
    (hnd : (l.map Prod.fst).Nodup) (k : String) (v w : β)
    (hv : (k, v) ∈ l) (hw : (k, w) ∈ l) : v = w := by
  induction l with
  | nil => cases hv
  | cons kv t ih =>
    simp only [List.map_cons, List.nodup_cons] at hnd
    rcases List.mem_cons.mp hv with hv | hv <;> rcases List.mem_cons.mp hw with hw | hw
    · exact congrArg Prod.snd (hv.trans hw.symm)
    · have hk : k ∈ t.map Prod.fst := List.mem_map_of_mem Prod.fst hw
      exact absurd (congrArg Prod.fst hv ▸ hk) hnd.1
    · have hk : k ∈ t.map Prod.fst := List.mem_map_of_mem Prod.fst hv
      exact absurd (congrArg Prod.fst hw ▸ hk) hnd.1
    · exact ih hnd.2 hv hw

/-- C6 amended: `specs` strings are split on runs of the four delimiter
characters with empty tokens discarded but *not* trimmed; `""` yields `[]`;
every patch entry the reducer emits comes from an entry whose `specs` was a
string (entries already in array form are untouched and contribute no
patch entry), and every string-specs entry contributes its split. -/
theorem skill_split_correct :
    splitSpecs "Pistols,Pistols/Light" = ["Pistols", "Pistols", "Light"] ∧
    splitSpecs "" = [] ∧
    (∀ s : String, "" ∉ splitSpecs s) ∧
    (∀ (g : SkillGroup) (kv : String × List String), kv ∈ skillsReducer g →
      ∃ s, (kv.1, SkillEntry.mk (Specs.str s)) ∈ g ∧ kv.2 = splitSpecs s) ∧
    (∀ (g : SkillGroup) (k s : String),
      (k, SkillEntry.mk (Specs.str s)) ∈ g → (k, splitSpecs s) ∈ skillsReducer g) := by
  refine ⟨rfl, rfl, ?_, ?_, ?_⟩
  · intro s hmem
    simp [splitSpecs, List.mem_filter] at hmem
  · intro g kv hkv
    rw [skillsReducer, List.mem_filterMap] at hkv
    obtain ⟨⟨k, ⟨sp⟩⟩, hx, hfx⟩ := hkv
    cases sp with
    | arr a => simp at hfx
    | str s =>
      simp only [Option.some.injEq] at hfx
      subst hfx
      exact ⟨s, hx, rfl⟩
  · intro g k s h
    rw [skillsReducer, List.mem_filterMap]
    exact ⟨(k, SkillEntry.mk (Specs.str s)), h, rfl⟩

/-- Witness for the amended C6 on the concrete group `groupDrop`. -/
theorem skill_split_correct_witness :
    "" ∉ splitSpecs "a,,b" ∧
    (∃ s, (("pistols" : String), SkillEntry.mk (Specs.str s)) ∈ groupDrop ∧
      (["y"] : List String) = splitSpecs s) ∧
    ("pistols", splitSpecs "y") ∈ skillsReducer groupDrop :=
  ⟨skill_split_correct.2.2.1 "a,,b",
   skill_split_correct.2.2.2.1 groupDrop ("pistols", ["y"]) (by decide),
   skill_split_correct.2.2.2.2 groupDrop "pistols" "y" (by decide)⟩

/-- A string-specs entry of a group always contributes its split to the
reducer's output object. -/
theorem str_mem_skillsReducer (g : SkillGroup) (k s : String)
    (h : (k, SkillEntry.mk (Specs.str s)) ∈ g) :
    (k, splitSpecs s) ∈ skillsReducer g := by
  rw [skillsReducer, List.mem_filterMap]
  exact ⟨_, h, rfl⟩

/-- The keys of the reducer's output are exactly the keys of the entries
whose `specs` is not an array, in their original order. -/
theorem skillsReducer_keys (g : SkillGroup) :
    (skillsReducer g).map Prod.fst =
      (g.filter fun kv => !kv.2.specs.isArr).map Prod.fst := by
  induction g with
  | nil => rfl
  | cons kv t ih =>
    simp only [skillsReducer] at ih ⊢
    cases h : kv.2.specs with
    | str s => simp [List.filterMap_cons, List.filter_cons, h, Specs.isArr, ih]
    | arr a => simp [List.filterMap_cons, List.filter_cons, h, Specs.isArr, ih]

/-- Merging the reducer's output back into the group touches no key: the
merged group has the same key sequence as the original. -/
theorem mergeGroup_reducer_keys (g : SkillGroup) :
    (mergeGroup g (skillsReducer g)).map Prod.fst = g.map Prod.fst := by
  have happ : ((skillsReducer g).filter fun ka => ((g.lookup ka.1).isNone : Bool)) = [] := by
    rw [List.filter_eq_nil_iff]
    intro ka hka
    rw [skillsReducer, List.mem_filterMap] at hka
    obtain ⟨⟨xk, ⟨xsp⟩⟩, hx, hfx⟩ := hka
    cases xsp with
    | arr a => simp at hfx
    | str s =>
      simp only [Option.some.injEq] at hfx
      subst hfx
      have := lookup_isSome_of_mem g xk (SkillEntry.mk (Specs.str s)) hx
      simp [Option.isNone, Option.isSome] at this ⊢
      cases hl : g.lookup xk with
      | none => rw [hl] at this; cases this
      | some e => simp
  unfold mergeGroup
  rw [List.map_append, happ]
  simp only [List.map_nil, List.append_nil, List.map_map]
  apply List.map_congr_left
  intro kv _
  simp only [Function.comp_apply]
  cases hl : List.lookup kv.1 (skillsReducer g) <;> rfl

/-- Every entry of the group obtained by merging the reducer's output back
into a group has array-shaped `specs`. -/
theorem mergeGroup_reducer_all_arr (g : SkillGroup) (kv : String × SkillEntry)
    (h : kv ∈ mergeGroup g (skillsReducer g)) : kv.2.specs.isArr = true := by
  unfold mergeGroup at h
  rcases List.mem_append.mp h with h | h
  · rw [List.mem_map] at h
    obtain ⟨⟨xk, ⟨xsp⟩⟩, hx, hfx⟩ := h
    cases hl : (skillsReducer g).lookup xk with
    | some a =>
      rw [hl] at hfx
      rw [← hfx]
      rfl
    | none =>
      rw [hl] at hfx
      rw [← hfx]
      cases xsp with
      | arr a => rfl
      | str s =>
        exfalso
        have hmem := str_mem_skillsReducer g xk s hx
        have := lookup_isSome_of_mem (skillsReducer g) xk (splitSpecs s) hmem
        rw [hl] at this
        cases this
  · rw [List.mem_map] at h
    obtain ⟨x, hx, hfx⟩ := h
    rw [← hfx]
    rfl

/-- A group all of whose entries are already in array form reduces to the
empty patch object. -/
theorem skillsReducer_eq_nil (g : SkillGroup)
    (h : ∀ kv ∈ g, kv.2.specs.isArr = true) : skillsReducer g = [] := by
  rw [skillsReducer, List.filterMap_eq_nil_iff]
  intro kv hkv
  have harr := h kv hkv
  cases hsp : kv.2.specs with
  | str s => rw [hsp, Specs.isArr] at harr; cases harr
  | arr a => simp [hsp]

/-- Merging the empty group-patch object changes nothing. -/
theorem mergeGroup_nil (g : SkillGroup) : mergeGroup g [] = g := by
  unfold mergeGroup
  simp [List.lookup]

/-- C5 counterexample: on a group holding an already-migrated key
("rifles") and a legacy key ("pistols"), the skills rule's patch object for
the group contains only the legacy key — the already-migrated key is
dropped from the patch object, so the group's key set is not preserved. -/
theorem skills_patch_drops_migrated_keys :
    _migrateActorSkills actorDrop emptyActorPatch = .ok actorDropSkillsPatch ∧
    actorDropSkillsPatch.active = some [("pistols", ["y"])] ∧
    groupDrop.map Prod.fst = ["rifles", "pistols"] ∧
    (skillsReducer groupDrop).map Prod.fst = ["pistols"] ∧
    (skillsReducer groupDrop).lookup "rifles" = none ∧
    (groupDrop.lookup "rifles").isSome = true :=
  ⟨rfl, rfl, rfl, rfl, rfl, rfl⟩

/-- C5 amended: for each of the six groups the rule's patch object contains
exactly the keys whose `specs` was not already an array, in their original
relative order, each mapped to an object holding only the split `specs`;
already-migrated keys are omitted from the patch object (the host's merge
then leaves them, and the whole key sequence, unchanged in the
document). -/
theorem skills_rule_patch_shape :
    (∀ g : SkillGroup, (skillsReducer g).map Prod.fst =
        (g.filter fun kv => !kv.2.specs.isArr).map Prod.fst) ∧
    (∀ (g : SkillGroup) (k s : String), (k, SkillEntry.mk (Specs.str s)) ∈ g →
        (k, splitSpecs s) ∈ skillsReducer g) ∧
    (∀ g : SkillGroup, (g.map Prod.fst).Nodup →
        ∀ (k : String) (a : List String), (k, SkillEntry.mk (Specs.arr a)) ∈ g →
          (skillsReducer g).lookup k = none) ∧
    (∀ (actor : Actor) (u₀ u : ActorPatch), _migrateActorSkills actor u₀ = .ok u →
        u.active = actor.data.skills.active.map skillsReducer ∧
        u.knowledgeStreet = actor.data.skills.knowledgeStreet.map skillsReducer ∧
        u.knowledgeProfessional = actor.data.skills.knowledgeProfessional.map skillsReducer ∧
        u.knowledgeAcademic = actor.data.skills.knowledgeAcademic.map skillsReducer ∧
        u.knowledgeInterests = actor.data.skills.knowledgeInterests.map skillsReducer ∧
        u.language = actor.data.skills.language.map skillsReducer) ∧
    (∀ g : SkillGroup, (mergeGroup g (skillsReducer g)).map Prod.fst = g.map Prod.fst) := by
  refine ⟨skillsReducer_keys, str_mem_skillsReducer, ?_, ?_, mergeGroup_reducer_keys⟩
  · intro g hnd k a hmem
    apply lookup_eq_none_of_not_mem
    intro hk
    rw [skillsReducer_keys, List.mem_map] at hk
    obtain ⟨kv, hkv, hfst⟩ := hk
    have hgf := List.mem_filter.mp hkv
    have hkg : (k, kv.2) ∈ g := by
      rw [← hfst]
      exact hgf.1
    have heq : kv.2 = SkillEntry.mk (Specs.arr a) :=
      mem_unique_of_nodup_keys g hnd k kv.2 (SkillEntry.mk (Specs.arr a)) hkg hmem
    have harr := hgf.2
    rw [heq] at harr
    simp [Specs.isArr] at harr
  · intro actor u₀ u h
    obtain ⟨⟨ov, g1, g2, g3, g4, g5, g6⟩, its⟩ := actor
    have hpure : ∀ x : ActorPatch, (pure x : Except Unit ActorPatch) = Except.ok x :=
      fun _ => rfl
    cases g1 <;> cases g2 <;> cases g3 <;> cases g4 <;> cases g5 <;> cases g6 <;>
      simp_all [_migrateActorSkills, hpure]
    subst h
    exact ⟨rfl, rfl, rfl, rfl, rfl, rfl⟩

/-- Witness for the amended C5 on `groupDrop` and `actorDrop`. -/
theorem skills_rule_patch_shape_witness :
    (skillsReducer groupDrop).lookup "rifles" = none ∧
    actorDropSkillsPatch.active = actorDrop.data.skills.active.map skillsReducer :=
  ⟨skills_rule_patch_shape.2.2.1 groupDrop (by decide) "rifles" ["x"] (by decide),
   (skills_rule_patch_shape.2.2.2.1 actorDrop emptyActorPatch actorDropSkillsPatch rfl).1⟩

/-- C8: for every "quality" or "cyberware" item with no `data.action`,
`migrateItemData` returns a patch whose `data.action` is exactly the
default action literal (which coincides field-for-field with the literal
printed in the specification); for an item of any other type no action
patch — indeed no patch at all — is produced, whether or not its action is
missing. -/
theorem action_rule_correct :
    defaultAction = specActionLiteral ∧
    (∀ i : Item, i.type ∈ (["quality", "cyberware"] : List String) → i.data.action = none →
      ∃ d : ItemPatchData, migrateItemData i = .ok ⟨some d⟩ ∧ d.action = some defaultAction) ∧
    (∀ i : Item, i.type ∉ (["quality", "cyberware"] : List String) →
      migrateItemData i = .ok ⟨none⟩) := by
  refine ⟨rfl, ?_, ?_⟩
  · intro i hmem hact
    have hactions : _migrateItemsAddActions i ⟨none⟩ = ⟨some ⟨some defaultAction, none⟩⟩ := by
      unfold _migrateItemsAddActions
      rw [if_pos hmem, if_pos hact]
      rfl
    by_cases hc : i.type ∈ (["cyberware"] : List String)
    · by_cases hcap : i.data.capacity = none
      · refine ⟨⟨some defaultAction, some 0⟩, ?_, rfl⟩
        show _migrateItemsAddCapacity i (_migrateItemsAddActions i ⟨none⟩) = _
        rw [hactions]
        unfold _migrateItemsAddCapacity
        rw [if_pos hc, if_pos hcap]
      · refine ⟨⟨some defaultAction, none⟩, ?_, rfl⟩
        show _migrateItemsAddCapacity i (_migrateItemsAddActions i ⟨none⟩) = _
        rw [hactions]
        unfold _migrateItemsAddCapacity
        rw [if_pos hc, if_neg hcap]
    · refine ⟨⟨some defaultAction, none⟩, ?_, rfl⟩
      show _migrateItemsAddCapacity i (_migrateItemsAddActions i ⟨none⟩) = _
      rw [hactions]
      unfold _migrateItemsAddCapacity
      rw [if_neg hc]
  · intro i hmem
    have hc : i.type ∉ (["cyberware"] : List String) := by
      intro hc
      exact hmem (by simpa using Or.inr (by simpa using hc))
    show _migrateItemsAddCapacity i (_migrateItemsAddActions i ⟨none⟩) = _
    unfold _migrateItemsAddActions _migrateItemsAddCapacity
    rw [if_neg hmem, if_neg hc]

/-- Witness for C8 at a stale quality item and a weapon item. -/
theorem action_rule_correct_witness :
    defaultAction = specActionLiteral ∧
    (∃ d : ItemPatchData, migrateItemData qualityStale = .ok ⟨some d⟩ ∧
      d.action = some defaultAction) ∧
    migrateItemData weaponBare = .ok ⟨none⟩ :=
  ⟨action_rule_correct.1,
   action_rule_correct.2.1 qualityStale (by decide) rfl,
   action_rule_correct.2.2 weaponBare (by decide)⟩

/-- A world phase processes concatenated batches independently. -/
theorem migratePhase_append {α π : Type} (migrate : α → Except Unit π)
    (isEmpty : π → Bool) (l₁ l₂ : List (WDoc α)) :
    migratePhase migrate isEmpty (l₁ ++ l₂) =
      migratePhase migrate isEmpty l₁ ++ migratePhase migrate isEmpty l₂ := by
  induction l₁ with
  | nil => rfl
  | cons d t ih => simp [migratePhase, ih]

/-- A document whose migrator throws, or whose update call rejects,
contributes no applied update to its phase. -/
theorem migratePhase_single_failed {α π : Type} (migrate : α → Except Unit π)
    (isEmpty : π → Bool) (bad : WDoc α)
    (h : migrate bad.data = .error () ∨ bad.updateOk = false) :
    migratePhase migrate isEmpty [bad] = [] := by
  rcases h with h | h
  · simp [migratePhase, h]
  · cases hm : migrate bad.data with
    | error e => simp [migratePhase, hm]
    | ok u =>
      by_cases he : isEmpty u = true <;> simp [migratePhase, hm, he, h]

/-- The compendium per-entry loop processes concatenated batches
independently. -/
theorem migrateCompendiumContent_append (entity : String) (l₁ l₂ : List PackEntry) :
    migrateCompendiumContent entity (l₁ ++ l₂) =
      migrateCompendiumContent entity l₁ ++ migrateCompendiumContent entity l₂ := by
  induction l₁ with
  | nil => rfl
  | cons d t ih => simp [migrateCompendiumContent, ih]

/-- A pack entry whose patch computation throws, or whose update call
rejects, contributes no applied update to its pack's loop. -/
theorem migrateCompendiumContent_single_failed (entity : String) (bad : PackEntry)
    (h : compendiumEntityPatch entity bad.data = .error () ∨ bad.updateOk = false) :
    migrateCompendiumContent entity [bad] = [] := by
  rcases h with h | h
  · simp [migrateCompendiumContent, h]
  · cases hm : compendiumEntityPatch entity bad.data with
    | error e => simp [migrateCompendiumContent, hm]
    | ok u =>
      by_cases he : u.isEmpty = true <;> simp [migrateCompendiumContent, hm, he, h]

/-- C2 amended: a failure confined to one entity — its migrator throwing or
its own update call rejecting — is caught at the per-entity boundary, both
in the three world phases and inside a pack's per-entry loop, and the
surrounding entities are processed exactly as if the poisoned entity were
absent.  However, a *bundle-level* failure is not caught anywhere: a pack
of a migratable kind whose `migrate()` call rejects makes
`migrateCompendium` throw, and the pack loop then aborts, dropping every
remaining pack (and the run's completion step). -/
theorem per_entity_fault_isolation :
    (∀ {α π : Type} (migrate : α → Except Unit π) (isEmpty : π → Bool)
        (pre post : List (WDoc α)) (bad : WDoc α),
        migrate bad.data = .error () ∨ bad.updateOk = false →
        migratePhase migrate isEmpty (pre ++ bad :: post) =
          migratePhase migrate isEmpty pre ++ migratePhase migrate isEmpty post) ∧
    (∀ (entity : String) (pre post : List PackEntry) (bad : PackEntry),
        compendiumEntityPatch entity bad.data = .error () ∨ bad.updateOk = false →
        migrateCompendiumContent entity (pre ++ bad :: post) =
          migrateCompendiumContent entity pre ++ migrateCompendiumContent entity post) ∧
    (∀ pack : Pack, (["Actor", "Item", "Scene"].contains pack.entity) = true →
        pack.migrateOk = false → migrateCompendium pack = .error ()) ∧
    (∀ (pack : Pack) (rest : List Pack), migrateCompendium pack = .error () →
        migrateWorldPacks (pack :: rest) = ([], false)) := by
  refine ⟨?_, ?_, ?_, ?_⟩
  · intro α π migrate isEmpty pre post bad h
    have hsplit : pre ++ bad :: post = (pre ++ [bad]) ++ post := by simp
    rw [hsplit, migratePhase_append, migratePhase_append,
      migratePhase_single_failed migrate isEmpty bad h, List.append_nil]
  · intro entity pre post bad h
    have hsplit : pre ++ bad :: post = (pre ++ [bad]) ++ post := by simp
    rw [hsplit, migrateCompendiumContent_append, migrateCompendiumContent_append,
      migrateCompendiumContent_single_failed entity bad h, List.append_nil]
  · intro pack hkind hmig
    unfold migrateCompendium
    rw [if_neg (by rw [hkind]; simp), hmig]
    rfl
  · intro pack rest h
    unfold migrateWorldPacks
    rw [h]

/-- Witness for the amended C2: three world actors, the middle one
poisoned (its skills rule throws); the other two still have their updates
applied. -/
theorem per_entity_fault_isolation_witness :
    migratePhase migrateActorData ActorPatch.isEmpty [wdocA1, wdocBadActor, wdocA3] =
      ["A1", "A3"] :=
  (per_entity_fault_isolation.1 migrateActorData ActorPatch.isEmpty
    [wdocA1] [wdocA3] wdocBadActor (Or.inl rfl)).trans rfl

/-- C2 counterexample: in `worldC2` the only poison is bundle-level
(`packBad.migrate()` rejects); the entity "E2" of the healthy `packGood`
would be updated by the per-entry loop, yet `migrateWorld` applies no
update at all and aborts before completion — a bundle failure is not
confined to the per-entity boundary. -/
theorem bundle_error_aborts_batch :
    migrateWorld worldC2 = ([], false) ∧
    migrateCompendiumContent "Item" packGood.content = ["E2"] :=
  ⟨rfl, rfl⟩

/-- Reduction of a successful `Except` bind. -/
theorem except_bind_ok {β γ : Type} (x : β) (f : β → Except Unit γ) :
    (Except.ok x >>= f) = f x := rfl

/-- Reduction of a failed `Except` bind. -/
theorem except_bind_err {β γ : Type} (f : β → Except Unit γ) :
    ((Except.error () : Except Unit β) >>= f) = Except.error () := rfl

/-- `pure` on `Except` is `ok`. -/
theorem except_pure {β : Type} (x : β) :
    (pure x : Except Unit β) = Except.ok x := rfl

/-- Pointwise description of a successful `actor.items.map` pass: the pair
list has the items' length, and position `k` holds the original item (flag
`false`) when its patch is empty, or the merged deep copy (flag `true`)
otherwise. -/
theorem mapM_ownedItem_spec : ∀ (its : List Item) (pairs : List (Item × Bool)),
    its.mapM migrateOwnedItem = .ok pairs →
    pairs.length = its.length ∧
    ∀ k (hk : k < its.length), ∃ ip,
      migrateItemData its[k] = .ok ip ∧
      pairs[k]? = some (if ip.isEmpty then (its[k], false) else (its[k].merge ip, true)) := by
  intro its
  induction its with
  | nil =>
    intro pairs h
    rw [List.mapM_nil, except_pure] at h
    cases h
    exact ⟨rfl, fun k hk => absurd hk (by simp)⟩
  | cons i t ih =>
    intro pairs h
    rw [List.mapM_cons] at h
    cases hmi : migrateOwnedItem i with
    | error e => rw [hmi, except_bind_err] at h; cases h
    | ok b =>
      rw [hmi, except_bind_ok] at h
      cases hmt : t.mapM migrateOwnedItem with
      | error e => rw [hmt, except_bind_err] at h; cases h
      | ok bs =>
        rw [hmt, except_bind_ok, except_pure] at h
        cases h
        obtain ⟨ihlen, ihpt⟩ := ih bs hmt
        refine ⟨by simp [ihlen], ?_⟩
        intro k hk
        cases k with
        | zero =>
          unfold migrateOwnedItem at hmi
          cases hip : migrateItemData i with
          | error e => rw [hip, except_bind_err] at hmi; cases hmi
          | ok ip =>
            rw [hip, except_bind_ok] at hmi
            refine ⟨ip, hip, ?_⟩
            by_cases he : ip.isEmpty = true
            · rw [if_pos he] at hmi ⊢
              rw [except_pure] at hmi
              cases hmi
              simp
            · rw [if_neg he] at hmi ⊢
              rw [except_pure] at hmi
              cases hmi
              simp
        | succ n =>
          have hn : n < t.length := by
            simpa using Nat.lt_of_succ_lt_succ (by simpa using hk)
          obtain ⟨ip, hip, hpt⟩ := ihpt n hn
          exact ⟨ip, by simpa using hip, by simpa using hpt⟩

/-- Description of a successful `migrateOwnedItems` run: result list and
`hasItemUpdates` flag. -/
theorem migrateOwnedItems_spec (its : List Item) (l : List Item) (b : Bool)
    (h : migrateOwnedItems its = .ok (l, b)) :
    l.length = its.length ∧
    (∀ k (hk : k < its.length), ∃ ip,
        migrateItemData its[k] = .ok ip ∧
        l[k]? = some (if ip.isEmpty then its[k] else its[k].merge ip)) ∧
    (b = false → ∀ k (hk : k < its.length), ∃ ip,
        migrateItemData its[k] = .ok ip ∧ ip.isEmpty = true) ∧
    (b = true → ∃ k, ∃ hk : k < its.length, ∃ ip,
        migrateItemData its[k] = .ok ip ∧ ip.isEmpty = false) := by
  unfold migrateOwnedItems at h
  cases hmp : its.mapM migrateOwnedItem with
  | error e => rw [hmp, except_bind_err] at h; cases h
  | ok pairs =>
    rw [hmp, except_bind_ok, except_pure] at h
    cases h
    obtain ⟨hlen, hpt⟩ := mapM_ownedItem_spec its pairs hmp
    refine ⟨by simp [hlen], ?_, ?_, ?_⟩
    · intro k hk
      obtain ⟨ip, hip, hpk⟩ := hpt k hk
      refine ⟨ip, hip, ?_⟩
      rw [List.getElem?_map, hpk]
      by_cases he : ip.isEmpty = true
      · rw [if_pos he]
        simp [he]
      · rw [if_neg he]
        simp [he]
    · intro hb k hk
      obtain ⟨ip, hip, hpk⟩ := hpt k hk
      refine ⟨ip, hip, ?_⟩
      by_cases he : ip.isEmpty = true
      · exact he
      · exfalso
        rw [if_neg he] at hpk
        have hk2 : k < pairs.length := by rw [hlen]; exact hk
        rw [List.getElem?_eq_getElem hk2] at hpk
        have hx : pairs[k] = (its[k].merge ip, true) := Option.some.inj hpk
        have hmem : (its[k].merge ip, true) ∈ pairs := by
          rw [← hx]
          exact List.mem_iff_getElem.mpr ⟨k, hk2, rfl⟩
        have hfalse := List.any_eq_false.mp hb _ hmem
        simp at hfalse
    · intro hb
      obtain ⟨x, hxmem, hxsnd⟩ := List.any_eq_true.mp hb
      obtain ⟨k, hk, hxk⟩ := List.mem_iff_getElem.mp hxmem
      have hk' : k < its.length := by rw [← hlen]; exact hk
      obtain ⟨ip, hip, hpk⟩ := hpt k hk'
      refine ⟨k, hk', ip, hip, ?_⟩
      by_cases he : ip.isEmpty = true
      · exfalso
        rw [if_pos he] at hpk
        rw [List.getElem?_eq_getElem hk, hxk] at hpk
        have hx : x = (its[k], false) := Option.some.inj hpk
        rw [hx] at hxsnd
        simp at hxsnd
      · simpa using he

/-- A successful skills-rule run forces all six groups to be present and
describes the produced update object exactly. -/
theorem skills_ok_spec (actor : Actor) (u₀ u : ActorPatch)
    (h : _migrateActorSkills actor u₀ = .ok u) :
    ∃ g1 g2 g3 g4 g5 g6,
      actor.data.skills.active = some g1 ∧
      actor.data.skills.knowledgeStreet = some g2 ∧
      actor.data.skills.knowledgeProfessional = some g3 ∧
      actor.data.skills.knowledgeAcademic = some g4 ∧
      actor.data.skills.knowledgeInterests = some g5 ∧
      actor.data.skills.language = some g6 ∧
      u = { u₀ with
            active := some (skillsReducer g1)
            knowledgeStreet := some (skillsReducer g2)
            knowledgeProfessional := some (skillsReducer g3)
            knowledgeAcademic := some (skillsReducer g4)
            knowledgeInterests := some (skillsReducer g5)
            language := some (skillsReducer g6) } := by
  obtain ⟨⟨ov, g1, g2, g3, g4, g5, g6⟩, its⟩ := actor
  cases g1 <;> cases g2 <;> cases g3 <;> cases g4 <;> cases g5 <;> cases g6 <;>
    simp_all [_migrateActorSkills, except_pure]

/-- Computation of the skills rule when all six groups are present. -/
theorem skills_all_some (actor : Actor) (u₀ : ActorPatch)
    (g1 g2 g3 g4 g5 g6 : SkillGroup)
    (h1 : actor.data.skills.active = some g1)
    (h2 : actor.data.skills.knowledgeStreet = some g2)
    (h3 : actor.data.skills.knowledgeProfessional = some g3)
    (h4 : actor.data.skills.knowledgeAcademic = some g4)
    (h5 : actor.data.skills.knowledgeInterests = some g5)
    (h6 : actor.data.skills.language = some g6) :
    _migrateActorSkills actor u₀ = .ok
      { u₀ with
        active := some (skillsReducer g1)
        knowledgeStreet := some (skillsReducer g2)
        knowledgeProfessional := some (skillsReducer g3)
        knowledgeAcademic := some (skillsReducer g4)
        knowledgeInterests := some (skillsReducer g5)
        language := some (skillsReducer g6) } := by
  obtain ⟨⟨ov, a1, a2, a3, a4, a5, a6⟩, its⟩ := actor
  simp only at h1 h2 h3 h4 h5 h6
  subst h1 h2 h3 h4 h5 h6
  rfl

/-- The overflow rule never touches the `items` key. -/
theorem overflow_items (actor : Actor) (u : ActorPatch) :
    (_migrateActorOverflow actor u).items = u.items := by
  unfold _migrateActorOverflow
  by_cases h : actor.data.overflow = .num 0
  · rw [if_pos h]
  · rw [if_neg h]

/-- C9: for every Actor owning items whose migration succeeds, the patch's
`items` key is absent exactly when every owned item's patch was empty;
when present it holds a list of the same length as the owned sequence in
which position `k` is the original item if its patch was empty and the
deep copy merged with its patch otherwise — and at least one position
actually changed. -/
theorem actor_items_mapping (actor : Actor) (its : List Item) (u : ActorPatch)
    (hits : actor.items = some its) (hu : migrateActorData actor = .ok u) :
    (u.items = none → ∀ k (hk : k < its.length), ∃ ip,
        migrateItemData its[k] = .ok ip ∧ ip.isEmpty = true) ∧
    (∀ l, u.items = some l →
        l.length = its.length ∧
        (∀ k (hk : k < its.length), ∃ ip,
            migrateItemData its[k] = .ok ip ∧
            l[k]? = some (if ip.isEmpty then its[k] else its[k].merge ip)) ∧
        (∃ k, ∃ hk : k < its.length, ∃ ip,
            migrateItemData its[k] = .ok ip ∧ ip.isEmpty = false)) := by
  have hu0 : (_migrateActorSkills actor (_migrateActorOverflow actor emptyActorPatch) >>=
      fun ud =>
        match actor.items with
        | none => pure ud
        | some its => migrateOwnedItems its >>= fun r =>
            if r.2 = true then pure { ud with items := some r.1 } else pure ud) =
      Except.ok u := hu
  clear hu
  cases hsk : _migrateActorSkills actor (_migrateActorOverflow actor emptyActorPatch) with
  | error e => rw [hsk, except_bind_err] at hu0; cases hu0
  | ok u2 =>
    rw [hsk, except_bind_ok] at hu0
    rw [hits] at hu0
    have hu : (migrateOwnedItems its >>= fun r =>
        if r.2 = true then pure { u2 with items := some r.1 } else pure u2) =
        Except.ok u := hu0
    have hu2items : u2.items = none := by
      obtain ⟨g1, g2, g3, g4, g5, g6, _, _, _, _, _, _, hequ2⟩ :=
        skills_ok_spec actor _ u2 hsk
      rw [hequ2]
      show (_migrateActorOverflow actor emptyActorPatch).items = none
      rw [overflow_items]
      rfl
    cases hmo : migrateOwnedItems its with
    | error e => rw [hmo, except_bind_err] at hu; cases hu
    | ok r =>
      obtain ⟨l', b'⟩ := r
      rw [hmo, except_bind_ok] at hu
      obtain ⟨hlen, hpt, hall, hsome⟩ := migrateOwnedItems_spec its l' b' hmo
      cases b' with
      | false =>
        have hu' : (pure u2 : Except Unit ActorPatch) = Except.ok u := hu
        rw [except_pure] at hu'
        have hueq : u2 = u := Except.ok.inj hu'
        constructor
        · intro _ k hk
          exact hall rfl k hk
        · intro l hl
          rw [← hueq, hu2items] at hl
          cases hl
      | true =>
        have hu' : (pure { u2 with items := some l' } : Except Unit ActorPatch) =
            Except.ok u := hu
        rw [except_pure] at hu'
        have hueq : { u2 with items := some l' } = u := Except.ok.inj hu'
        constructor
        · intro hnone
          rw [← hueq] at hnone
          cases hnone
        · intro l hl
          rw [← hueq] at hl
          have hll : l' = l := Option.some.inj hl
          subst hll
          exact ⟨hlen, hpt, hsome rfl⟩

/-- Witness for C9 on an actor owning one stale quality item and one
already-migrated weapon item. -/
theorem actor_items_mapping_witness :
    actorRich.items = some [qualityStale, weaponBare] ∧
    migrateActorData actorRich = .ok actorRichPatch ∧
    actorRichPatch.items = some [qualityMigrated, weaponBare] ∧
    ([qualityMigrated, weaponBare] : List Item).length =
      ([qualityStale, weaponBare] : List Item).length ∧
    (∃ k, ∃ hk : k < ([qualityStale, weaponBare] : List Item).length, ∃ ip,
        migrateItemData ([qualityStale, weaponBare] : List Item)[k] = .ok ip ∧
        ip.isEmpty = false) :=
  ⟨rfl, rfl, rfl,
   ((actor_items_mapping actorRich [qualityStale, weaponBare] actorRichPatch rfl rfl).2
      [qualityMigrated, weaponBare] rfl).1,
   ((actor_items_mapping actorRich [qualityStale, weaponBare] actorRichPatch rfl rfl).2
      [qualityMigrated, weaponBare] rfl).2.2⟩

/-- Item idempotence: applying a successful item patch and migrating again
yields the empty patch. -/
theorem migrateItemData_idem (i : Item) (p : ItemPatch)
    (h : migrateItemData i = .ok p) :
    migrateItemData (i.merge p) = .ok ⟨none⟩ := by
  obtain ⟨ty, act, cap⟩ := i
  rcases Decidable.em (ty = "quality") with h1 | h1
  · subst h1
    cases act with
    | some a =>
      have hh : (Except.ok (⟨none⟩ : ItemPatch) : Except Unit ItemPatch) = .ok p := h
      cases hh
      rfl
    | none =>
      have hh : (Except.ok (⟨some ⟨some defaultAction, none⟩⟩ : ItemPatch) :
          Except Unit ItemPatch) = .ok p := h
      cases hh
      rfl
  · rcases Decidable.em (ty = "cyberware") with h2 | h2
    · subst h2
      cases act with
      | none =>
        cases cap with
        | none =>
          have hh : (Except.ok (⟨some ⟨some defaultAction, some 0⟩⟩ : ItemPatch) :
              Except Unit ItemPatch) = .ok p := h
          cases hh
          rfl
        | some c =>
          have hh : (Except.ok (⟨some ⟨some defaultAction, none⟩⟩ : ItemPatch) :
              Except Unit ItemPatch) = .ok p := h
          cases hh
          rfl
      | some a =>
        cases cap with
        | none =>
          have hh : (Except.error () : Except Unit ItemPatch) = .ok p := h
          cases hh
        | some c =>
          have hh : (Except.ok (⟨none⟩ : ItemPatch) : Except Unit ItemPatch) = .ok p := h
          cases hh
          rfl
    · have hm1 : ty ∉ (["quality", "cyberware"] : List String) := by simp [h1, h2]
      have hm2 : ty ∉ (["cyberware"] : List String) := by simp [h2]
      have hh : (Except.ok (⟨none⟩ : ItemPatch) : Except Unit ItemPatch) = .ok p := by
        rw [← h]
        show _ = _migrateItemsAddCapacity ⟨ty, act, cap⟩
          (_migrateItemsAddActions ⟨ty, act, cap⟩ ⟨none⟩)
        unfold _migrateItemsAddActions _migrateItemsAddCapacity
        rw [if_neg hm1, if_neg hm2]
      cases hh
      show _migrateItemsAddCapacity ⟨ty, act, cap⟩
        (_migrateItemsAddActions ⟨ty, act, cap⟩ ⟨none⟩) = _
      unfold _migrateItemsAddActions _migrateItemsAddCapacity
      rw [if_neg hm1, if_neg hm2]

/-- Re-running the owned-item mapping on a produced element is a no-op:
the element passes through unchanged with a `false` flag. -/
theorem migrateOwnedItem_second (i : Item) (r : Item × Bool)
    (h : migrateOwnedItem i = .ok r) :
    migrateOwnedItem r.1 = .ok (r.1, false) := by
  unfold migrateOwnedItem at h
  cases hip : migrateItemData i with
  | error e => rw [hip, except_bind_err] at h; cases h
  | ok ip =>
    rw [hip, except_bind_ok] at h
    by_cases he : ip.isEmpty = true
    · rw [if_pos he, except_pure] at h
      cases h
      show migrateOwnedItem i = .ok (i, false)
      unfold migrateOwnedItem
      rw [hip, except_bind_ok, if_pos he, except_pure]
    · rw [if_neg he, except_pure] at h
      cases h
      show migrateOwnedItem (i.merge ip) = .ok (i.merge ip, false)
      unfold migrateOwnedItem
      rw [migrateItemData_idem i ip hip, except_bind_ok, if_pos (by rfl), except_pure]

/-- Re-running the owned-item mapping over the produced item list yields
the same list with all flags `false`. -/
theorem mapM_ownedItem_second : ∀ (its : List Item) (pairs : List (Item × Bool)),
    its.mapM migrateOwnedItem = .ok pairs →
    (pairs.map Prod.fst).mapM migrateOwnedItem =
      .ok (pairs.map fun pr => (pr.1, false)) := by
  intro its
  induction its with
  | nil =>
    intro pairs h
    rw [List.mapM_nil, except_pure] at h
    cases h
    rfl
  | cons i t ih =>
    intro pairs h
    rw [List.mapM_cons] at h
    cases hmi : migrateOwnedItem i with
    | error e => rw [hmi, except_bind_err] at h; cases h
    | ok b =>
      rw [hmi, except_bind_ok] at h
      cases hmt : t.mapM migrateOwnedItem with
      | error e => rw [hmt, except_bind_err] at h; cases h
      | ok bs =>
        rw [hmt, except_bind_ok, except_pure] at h
        cases h
        rw [List.map_cons, List.map_cons, List.mapM_cons]
        rw [migrateOwnedItem_second i b hmi, except_bind_ok]
        rw [ih bs hmt, except_bind_ok, except_pure]

/-- Re-running `migrateOwnedItems` on its own output changes nothing and
reports no updates. -/
theorem migrateOwnedItems_second (its l : List Item) (b : Bool)
    (h : migrateOwnedItems its = .ok (l, b)) :
    migrateOwnedItems l = .ok (l, false) := by
  unfold migrateOwnedItems at h ⊢
  cases hmp : its.mapM migrateOwnedItem with
  | error e => rw [hmp, except_bind_err] at h; cases h
  | ok pairs =>
    rw [hmp, except_bind_ok, except_pure] at h
    have hpair := Except.ok.inj h
    have hl : pairs.map Prod.fst = l := congrArg Prod.fst hpair
    rw [← hl]
    rw [mapM_ownedItem_second its pairs hmp, except_bind_ok, except_pure]
    simp [List.map_map, Function.comp]

/-- An update-free first pass returns the owned list unchanged. -/
theorem ownedItems_unchanged (its l : List Item)
    (h : migrateOwnedItems its = .ok (l, false)) : l = its := by
  obtain ⟨hlen, hpt, hall, _⟩ := migrateOwnedItems_spec its l false h
  apply List.ext_getElem?
  intro k
  by_cases hk : k < its.length
  · obtain ⟨ip, hip, hpk⟩ := hpt k hk
    obtain ⟨ip2, hip2, he⟩ := hall rfl k hk
    have hipeq : ip = ip2 := by
      rw [hip] at hip2
      exact Except.ok.inj hip2
    rw [hpk, List.getElem?_eq_getElem hk, if_pos (hipeq ▸ he)]
  · have hk2 : ¬ k < l.length := by rw [hlen]; exact hk
    rw [List.getElem?_eq_none (Nat.le_of_not_lt hk2),
      List.getElem?_eq_none (Nat.le_of_not_lt hk)]

/-- The overflow rule either fires (legacy bare 0) or leaves the update
object untouched. -/
theorem overflow_rule_cases (actor : Actor) (u : ActorPatch) :
    (actor.data.overflow = .num 0 ∧
      _migrateActorOverflow actor u =
        { u with overflowValue := some 0, overflowMax := some 0 }) ∨
    (actor.data.overflow ≠ .num 0 ∧ _migrateActorOverflow actor u = u) := by
  by_cases h : actor.data.overflow = .num 0
  · left
    refine ⟨h, ?_⟩
    unfold _migrateActorOverflow
    rw [if_pos h]
  · right
    refine ⟨h, ?_⟩
    unfold _migrateActorOverflow
    rw [if_neg h]

/-- Applying any group patch to a present group yields a present group. -/
theorem applyGroupPatch_some (g : SkillGroup) (patch : Option GroupPatch) :
    ∃ g', applyGroupPatch (some g) patch = some g' := by
  cases patch <;> exact ⟨_, rfl⟩

/-- Applying the second-run update object changes nothing on an actor
whose six groups are present. -/
theorem applyPatch_noop (a : Actor) (g1 g2 g3 g4 g5 g6 : SkillGroup)
    (h1 : a.data.skills.active = some g1)
    (h2 : a.data.skills.knowledgeStreet = some g2)
    (h3 : a.data.skills.knowledgeProfessional = some g3)
    (h4 : a.data.skills.knowledgeAcademic = some g4)
    (h5 : a.data.skills.knowledgeInterests = some g5)
    (h6 : a.data.skills.language = some g6) :
    a.applyPatch noopActorPatch = a := by
  obtain ⟨⟨ov, a1, a2, a3, a4, a5, a6⟩, its⟩ := a
  simp only at h1 h2 h3 h4 h5 h6
  subst h1 h2 h3 h4 h5 h6
  unfold Actor.applyPatch noopActorPatch emptyActorPatch
  simp [applyGroupPatch, mergeGroup_nil, Overflow.applyPatch]

/-- An actor on which no rule finds anything stale — overflow not the bare
number 0, six groups present and reducing to the empty patch object, owned
items absent or mapping to themselves without updates — migrates to the
fixed second-run update object. -/
theorem migrateActorData_noop (a : Actor)
    (hov : a.data.overflow ≠ .num 0)
    (h1 : ∃ g, a.data.skills.active = some g ∧ skillsReducer g = [])
    (h2 : ∃ g, a.data.skills.knowledgeStreet = some g ∧ skillsReducer g = [])
    (h3 : ∃ g, a.data.skills.knowledgeProfessional = some g ∧ skillsReducer g = [])
    (h4 : ∃ g, a.data.skills.knowledgeAcademic = some g ∧ skillsReducer g = [])
    (h5 : ∃ g, a.data.skills.knowledgeInterests = some g ∧ skillsReducer g = [])
    (h6 : ∃ g, a.data.skills.language = some g ∧ skillsReducer g = [])
    (hit : a.items = none ∨
      ∃ l, a.items = some l ∧ migrateOwnedItems l = .ok (l, false)) :
    migrateActorData a = .ok noopActorPatch := by
  obtain ⟨g1, hg1, hn1⟩ := h1
  obtain ⟨g2, hg2, hn2⟩ := h2
  obtain ⟨g3, hg3, hn3⟩ := h3
  obtain ⟨g4, hg4, hn4⟩ := h4
  obtain ⟨g5, hg5, hn5⟩ := h5
  obtain ⟨g6, hg6, hn6⟩ := h6
  obtain ⟨⟨ov, a1, a2, a3, a4, a5, a6⟩, aits⟩ := a
  simp only at hg1 hg2 hg3 hg4 hg5 hg6 hov hit
  subst hg1 hg2 hg3 hg4 hg5 hg6
  have hov1 : _migrateActorOverflow
      ⟨⟨ov, some g1, some g2, some g3, some g4, some g5, some g6⟩, aits⟩
      emptyActorPatch = emptyActorPatch := by
    unfold _migrateActorOverflow
    rw [if_neg hov]
  have hsk := skills_all_some
    ⟨⟨ov, some g1, some g2, some g3, some g4, some g5, some g6⟩, aits⟩
    emptyActorPatch g1 g2 g3 g4 g5 g6 rfl rfl rfl rfl rfl rfl
  rw [hn1, hn2, hn3, hn4, hn5, hn6] at hsk
  rcases hit with hit | ⟨l, hit, hmo⟩
  · subst hit
    show (_migrateActorSkills
        ⟨⟨ov, some g1, some g2, some g3, some g4, some g5, some g6⟩, none⟩
        (_migrateActorOverflow
          ⟨⟨ov, some g1, some g2, some g3, some g4, some g5, some g6⟩, none⟩
          emptyActorPatch) >>= fun ud => pure ud) = Except.ok noopActorPatch
    rw [hov1, hsk, except_bind_ok]
    rfl
  · subst hit
    show (_migrateActorSkills
        ⟨⟨ov, some g1, some g2, some g3, some g4, some g5, some g6⟩, some l⟩
        (_migrateActorOverflow
          ⟨⟨ov, some g1, some g2, some g3, some g4, some g5, some g6⟩, some l⟩
          emptyActorPatch) >>= fun ud =>
          migrateOwnedItems l >>= fun r =>
            if r.2 = true then pure { ud with items := some r.1 } else pure ud) =
      Except.ok noopActorPatch
    rw [hov1, hsk, except_bind_ok, hmo, except_bind_ok]
    rfl

/-- The reducer output of a merged-back group is empty. -/
theorem skillsReducer_mergeGroup_nil (g : SkillGroup) :
    skillsReducer (mergeGroup g (skillsReducer g)) = [] :=
  skillsReducer_eq_nil _ (fun kv hkv => mergeGroup_reducer_all_arr g kv hkv)

/-- Applying a patch that carries the six reduced groups prepares the actor
for a no-op second run, given the overflow and items conditions. -/
theorem applyPatch_second_ready (a : Actor) (p : ActorPatch)
    (g1 g2 g3 g4 g5 g6 : SkillGroup)
    (hg1 : a.data.skills.active = some g1)
    (hg2 : a.data.skills.knowledgeStreet = some g2)
    (hg3 : a.data.skills.knowledgeProfessional = some g3)
    (hg4 : a.data.skills.knowledgeAcademic = some g4)
    (hg5 : a.data.skills.knowledgeInterests = some g5)
    (hg6 : a.data.skills.language = some g6)
    (hp1 : p.active = some (skillsReducer g1))
    (hp2 : p.knowledgeStreet = some (skillsReducer g2))
    (hp3 : p.knowledgeProfessional = some (skillsReducer g3))
    (hp4 : p.knowledgeAcademic = some (skillsReducer g4))
    (hp5 : p.knowledgeInterests = some (skillsReducer g5))
    (hp6 : p.language = some (skillsReducer g6))
    (hov : (a.applyPatch p).data.overflow ≠ .num 0)
    (hit : (a.applyPatch p).items = none ∨
      ∃ l, (a.applyPatch p).items = some l ∧ migrateOwnedItems l = .ok (l, false)) :
    migrateActorData (a.applyPatch p) = .ok noopActorPatch := by
  refine migrateActorData_noop _ hov ?_ ?_ ?_ ?_ ?_ ?_ hit
  · exact ⟨mergeGroup g1 (skillsReducer g1),
      by rw [show (a.applyPatch p).data.skills.active =
          applyGroupPatch a.data.skills.active p.active from rfl, hg1, hp1]; rfl,
      skillsReducer_mergeGroup_nil g1⟩
  · exact ⟨mergeGroup g2 (skillsReducer g2),
      by rw [show (a.applyPatch p).data.skills.knowledgeStreet =
          applyGroupPatch a.data.skills.knowledgeStreet p.knowledgeStreet from rfl, hg2, hp2]; rfl,
      skillsReducer_mergeGroup_nil g2⟩
  · exact ⟨mergeGroup g3 (skillsReducer g3),
      by rw [show (a.applyPatch p).data.skills.knowledgeProfessional =
          applyGroupPatch a.data.skills.knowledgeProfessional p.knowledgeProfessional from rfl,
        hg3, hp3]; rfl,
      skillsReducer_mergeGroup_nil g3⟩
  · exact ⟨mergeGroup g4 (skillsReducer g4),
      by rw [show (a.applyPatch p).data.skills.knowledgeAcademic =
          applyGroupPatch a.data.skills.knowledgeAcademic p.knowledgeAcademic from rfl,
        hg4, hp4]; rfl,
      skillsReducer_mergeGroup_nil g4⟩
  · exact ⟨mergeGroup g5 (skillsReducer g5),
      by rw [show (a.applyPatch p).data.skills.knowledgeInterests =
          applyGroupPatch a.data.skills.knowledgeInterests p.knowledgeInterests from rfl,
        hg5, hp5]; rfl,
      skillsReducer_mergeGroup_nil g5⟩
  · exact ⟨mergeGroup g6 (skillsReducer g6),
      by rw [show (a.applyPatch p).data.skills.language =
          applyGroupPatch a.data.skills.language p.language from rfl, hg6, hp6]; rfl,
      skillsReducer_mergeGroup_nil g6⟩


/-- The merged overflow value after a successful first run is never the
bare number 0 again. -/
theorem overflow_applied_ne (o : Overflow) (v m : Option Int)
    (h : (v = some 0 ∧ m = some 0 ∧ o = .num 0) ∨ (v = none ∧ m = none ∧ o ≠ .num 0)) :
    Overflow.applyPatch o v m ≠ .num 0 := by
  rcases h with ⟨hv, hm, ho⟩ | ⟨hv, hm, ho⟩
  · subst hv
    subst hm
    subst ho
    decide
  · subst hv
    subst hm
    show o ≠ .num 0
    exact ho

/-- Actor second run: applying a successful actor patch and migrating again
yields the fixed no-op update object (six skill-group keys mapped to empty
objects, nothing else). -/
theorem migrateActorData_second (a : Actor) (p : ActorPatch)
    (h : migrateActorData a = .ok p) :
    migrateActorData (a.applyPatch p) = .ok noopActorPatch := by
  have hu0 : (_migrateActorSkills a (_migrateActorOverflow a emptyActorPatch) >>=
      fun ud =>
        match a.items with
        | none => pure ud
        | some its => migrateOwnedItems its >>= fun r =>
            if r.2 = true then pure { ud with items := some r.1 } else pure ud) =
      Except.ok p := h
  clear h
  cases hsk : _migrateActorSkills a (_migrateActorOverflow a emptyActorPatch) with
  | error e => rw [hsk, except_bind_err] at hu0; cases hu0
  | ok u2 =>
    rw [hsk, except_bind_ok] at hu0
    obtain ⟨g1, g2, g3, g4, g5, g6, hg1, hg2, hg3, hg4, hg5, hg6, hequ2⟩ :=
      skills_ok_spec a _ u2 hsk
    have hu1 : u2.active = some (skillsReducer g1) ∧
        u2.knowledgeStreet = some (skillsReducer g2) ∧
        u2.knowledgeProfessional = some (skillsReducer g3) ∧
        u2.knowledgeAcademic = some (skillsReducer g4) ∧
        u2.knowledgeInterests = some (skillsReducer g5) ∧
        u2.language = some (skillsReducer g6) ∧
        u2.items = none ∧
        ((u2.overflowValue = some 0 ∧ u2.overflowMax = some 0 ∧
            a.data.overflow = .num 0) ∨
          (u2.overflowValue = none ∧ u2.overflowMax = none ∧
            a.data.overflow ≠ .num 0)) := by
      rcases overflow_rule_cases a emptyActorPatch with ⟨hnum, hov⟩ | ⟨hnum, hov⟩
      · rw [hov] at hequ2
        subst hequ2
        exact ⟨rfl, rfl, rfl, rfl, rfl, rfl, rfl, Or.inl ⟨rfl, rfl, hnum⟩⟩
      · rw [hov] at hequ2
        subst hequ2
        exact ⟨rfl, rfl, rfl, rfl, rfl, rfl, rfl, Or.inr ⟨rfl, rfl, hnum⟩⟩
    obtain ⟨hq1, hq2, hq3, hq4, hq5, hq6, hqit, hqov⟩ := hu1
    have hitems : (p = u2 ∧ (a.items = none ∨
          ∃ l, a.items = some l ∧ migrateOwnedItems l = .ok (l, false))) ∨
        (∃ l, p = { u2 with items := some l } ∧
          migrateOwnedItems l = .ok (l, false)) := by
      cases hits : a.items with
      | none =>
        rw [hits] at hu0
        have hp : (pure u2 : Except Unit ActorPatch) = Except.ok p := hu0
        rw [except_pure] at hp
        exact Or.inl ⟨(Except.ok.inj hp).symm, Or.inl rfl⟩
      | some its =>
        rw [hits] at hu0
        have hu : (migrateOwnedItems its >>= fun r =>
            if r.2 = true then pure { u2 with items := some r.1 } else pure u2) =
            Except.ok p := hu0
        cases hmo : migrateOwnedItems its with
        | error e => rw [hmo, except_bind_err] at hu; cases hu
        | ok r =>
          obtain ⟨l, b⟩ := r
          rw [hmo, except_bind_ok] at hu
          cases b with
          | false =>
            have hp : (pure u2 : Except Unit ActorPatch) = Except.ok p := hu
            rw [except_pure] at hp
            have hli : l = its := ownedItems_unchanged its l hmo
            rw [hli] at hmo
            exact Or.inl ⟨(Except.ok.inj hp).symm, Or.inr ⟨its, rfl, hmo⟩⟩
          | true =>
            have hp : (pure { u2 with items := some l } : Except Unit ActorPatch) =
                Except.ok p := hu
            rw [except_pure] at hp
            exact Or.inr ⟨l, (Except.ok.inj hp).symm,
              migrateOwnedItems_second its l true hmo⟩
    rcases hitems with ⟨hpe, hit⟩ | ⟨l, hpe, hml⟩
    · subst hpe
      refine applyPatch_second_ready a p g1 g2 g3 g4 g5 g6
        hg1 hg2 hg3 hg4 hg5 hg6 hq1 hq2 hq3 hq4 hq5 hq6 ?_ ?_
      · show Overflow.applyPatch a.data.overflow p.overflowValue p.overflowMax ≠ _
        exact overflow_applied_ne _ _ _ hqov
      · have hsame : (a.applyPatch p).items = a.items := by
          show (match p.items with
            | some l => some l
            | none => a.items) = a.items
          rw [hqit]
        rcases hit with hit | ⟨l, hl, hml⟩
        · exact Or.inl (by rw [hsame, hit])
        · exact Or.inr ⟨l, by rw [hsame, hl], hml⟩
    · subst hpe
      refine applyPatch_second_ready a _ g1 g2 g3 g4 g5 g6
        hg1 hg2 hg3 hg4 hg5 hg6 hq1 hq2 hq3 hq4 hq5 hq6 ?_ ?_
      · show Overflow.applyPatch a.data.overflow u2.overflowValue u2.overflowMax ≠ _
        exact overflow_applied_ne _ _ _ hqov
      · refine Or.inr ⟨l, ?_, hml⟩
        show (match (some l : Option (List Item)) with
          | some l => some l
          | none => a.items) = some l
        rfl

/-- A successful actor migration implies all six skill groups were
present. -/
theorem migrateActorData_groups (a : Actor) (u : ActorPatch)
    (h : migrateActorData a = .ok u) :
    ∃ g1 g2 g3 g4 g5 g6,
      a.data.skills.active = some g1 ∧
      a.data.skills.knowledgeStreet = some g2 ∧
      a.data.skills.knowledgeProfessional = some g3 ∧
      a.data.skills.knowledgeAcademic = some g4 ∧
      a.data.skills.knowledgeInterests = some g5 ∧
      a.data.skills.language = some g6 := by
  have hu0 : (_migrateActorSkills a (_migrateActorOverflow a emptyActorPatch) >>=
      fun ud =>
        match a.items with
        | none => pure ud
        | some its => migrateOwnedItems its >>= fun r =>
            if r.2 = true then pure { ud with items := some r.1 } else pure ud) =
      Except.ok u := h
  cases hsk : _migrateActorSkills a (_migrateActorOverflow a emptyActorPatch) with
  | error e => rw [hsk, except_bind_err] at hu0; cases hu0
  | ok u2 =>
    obtain ⟨g1, g2, g3, g4, g5, g6, hg1, hg2, hg3, hg4, hg5, hg6, _⟩ :=
      skills_ok_spec a _ u2 hsk
    exact ⟨g1, g2, g3, g4, g5, g6, hg1, hg2, hg3, hg4, hg5, hg6⟩

/-- Applying the no-op second-run patch to an already-patched actor changes
nothing. -/
theorem applied_applyPatch_noop (a : Actor) (p : ActorPatch)
    (hg : ∃ g1 g2 g3 g4 g5 g6,
      a.data.skills.active = some g1 ∧
      a.data.skills.knowledgeStreet = some g2 ∧
      a.data.skills.knowledgeProfessional = some g3 ∧
      a.data.skills.knowledgeAcademic = some g4 ∧
      a.data.skills.knowledgeInterests = some g5 ∧
      a.data.skills.language = some g6) :
    (a.applyPatch p).applyPatch noopActorPatch = a.applyPatch p := by
  obtain ⟨g1, g2, g3, g4, g5, g6, h1, h2, h3, h4, h5, h6⟩ := hg
  obtain ⟨g1', e1⟩ := applyGroupPatch_some g1 p.active
  obtain ⟨g2', e2⟩ := applyGroupPatch_some g2 p.knowledgeStreet
  obtain ⟨g3', e3⟩ := applyGroupPatch_some g3 p.knowledgeProfessional
  obtain ⟨g4', e4⟩ := applyGroupPatch_some g4 p.knowledgeAcademic
  obtain ⟨g5', e5⟩ := applyGroupPatch_some g5 p.knowledgeInterests
  obtain ⟨g6', e6⟩ := applyGroupPatch_some g6 p.language
  refine applyPatch_noop (a.applyPatch p) g1' g2' g3' g4' g5' g6' ?_ ?_ ?_ ?_ ?_ ?_
  · show applyGroupPatch a.data.skills.active p.active = some g1'
    rw [h1]
    exact e1
  · show applyGroupPatch a.data.skills.knowledgeStreet p.knowledgeStreet = some g2'
    rw [h2]
    exact e2
  · show applyGroupPatch a.data.skills.knowledgeProfessional p.knowledgeProfessional = some g3'
    rw [h3]
    exact e3
  · show applyGroupPatch a.data.skills.knowledgeAcademic p.knowledgeAcademic = some g4'
    rw [h4]
    exact e4
  · show applyGroupPatch a.data.skills.knowledgeInterests p.knowledgeInterests = some g5'
    rw [h5]
    exact e5
  · show applyGroupPatch a.data.skills.language p.language = some g6'
    rw [h6]
    exact e6

/-- Token second run: re-migrating a token the scene pass produced leaves
it unchanged. -/
theorem migrateToken_second (t t' : Token) (h : migrateToken t = .ok t') :
    migrateToken t' = .ok t' := by
  unfold migrateToken at h
  cases hov : t.actorData with
  | none =>
    rw [hov] at h
    have h1 : Except.ok { t with actorData := (none : Option Actor) } = Except.ok t' := h
    cases h1
    rfl
  | some ov =>
    rw [hov] at h
    have h1 : (if (t.actorId.isNone || t.actorLink) = true then
        Except.ok { t with actorData := (none : Option Actor) }
      else if (!t.actorResolvable) = true then
        Except.ok { t with actorId := none, actorData := (none : Option Actor) }
      else migrateActorData ov >>= fun updateData =>
        pure { t with actorData := some (ov.applyPatch updateData) }) = Except.ok t' := h
    by_cases hc1 : (t.actorId.isNone || t.actorLink) = true
    · rw [if_pos hc1] at h1
      cases h1
      rfl
    · rw [if_neg hc1] at h1
      by_cases hc2 : (!t.actorResolvable) = true
      · rw [if_pos hc2] at h1
        cases h1
        rfl
      · rw [if_neg hc2] at h1
        cases hma : migrateActorData ov with
        | error e => rw [hma, except_bind_err] at h1; cases h1
        | ok u =>
          rw [hma, except_bind_ok, except_pure] at h1
          cases h1
          have hres : migrateToken
              ⟨t.actorId, t.actorLink, some (ov.applyPatch u), t.actorResolvable⟩ =
              (if (t.actorId.isNone || t.actorLink) = true then
                Except.ok (⟨t.actorId, t.actorLink, none, t.actorResolvable⟩ : Token)
              else if (!t.actorResolvable) = true then
                Except.ok (⟨none, t.actorLink, none, t.actorResolvable⟩ : Token)
              else migrateActorData (ov.applyPatch u) >>= fun ud =>
                pure (⟨t.actorId, t.actorLink, some ((ov.applyPatch u).applyPatch ud),
                  t.actorResolvable⟩ : Token)) := rfl
          rw [hres, if_neg hc1, if_neg hc2,
            migrateActorData_second ov u hma, except_bind_ok,
            applied_applyPatch_noop ov u (migrateActorData_groups ov u hma)]
          rfl

/-- Re-running the token mapping over its own output reproduces it. -/
theorem mapM_token_second : ∀ (ts ts' : List Token),
    ts.mapM migrateToken = .ok ts' → ts'.mapM migrateToken = .ok ts' := by
  intro ts
  induction ts with
  | nil =>
    intro ts' h
    rw [List.mapM_nil, except_pure] at h
    cases h
    rfl
  | cons t rest ih =>
    intro ts' h
    rw [List.mapM_cons] at h
    cases hmt : migrateToken t with
    | error e => rw [hmt, except_bind_err] at h; cases h
    | ok t1 =>
      rw [hmt, except_bind_ok] at h
      cases hmr : rest.mapM migrateToken with
      | error e => rw [hmr, except_bind_err] at h; cases h
      | ok rs =>
        rw [hmr, except_bind_ok, except_pure] at h
        cases h
        rw [List.mapM_cons, migrateToken_second t t1 hmt, except_bind_ok,
          ih rs hmr, except_bind_ok, except_pure]

/-- Scene second run: applying the scene patch and migrating again yields
the very same patch. -/
theorem migrateSceneData_second (s : Scene) (p : ScenePatch)
    (h : migrateSceneData s = .ok p) :
    migrateSceneData (s.applyPatch p) = .ok p := by
  unfold migrateSceneData at h
  cases hmt : s.tokens.mapM migrateToken with
  | error e => rw [hmt, except_bind_err] at h; cases h
  | ok ts =>
    rw [hmt, except_bind_ok, except_pure] at h
    cases h
    show (ts.mapM migrateToken >>= fun tokens => pure (⟨tokens⟩ : ScenePatch)) =
      Except.ok (⟨ts⟩ : ScenePatch)
    rw [mapM_token_second s.tokens ts hmt, except_bind_ok, except_pure]

/-- C1 counterexample: a Scene update object always carries the `tokens`
key, so even on a scene with no tokens — where applying the first patch
provably changes nothing — the second run's patch is not empty. -/
theorem scene_second_patch_nonempty :
    migrateSceneData ⟨[]⟩ = .ok ⟨[]⟩ ∧
    Scene.applyPatch ⟨[]⟩ ⟨[]⟩ = ⟨[]⟩ ∧
    ScenePatch.isEmpty ⟨[]⟩ = false :=
  ⟨rfl, rfl, rfl⟩

/-- C1 amended: after applying a successful first patch, a second run is
a no-op but only the Item migrator's second patch is literally empty: the
Actor migrator's second patch is always the fixed non-empty object holding
the six skill-group keys mapped to empty objects (and applying it changes
nothing), and the Scene migrator's second patch is the non-empty first
patch again (and applying it changes nothing). -/
theorem second_run_noop :
    (∀ (i : Item) (p : ItemPatch), migrateItemData i = .ok p →
      migrateItemData (i.applyPatch p) = .ok ⟨none⟩ ∧
      ItemPatch.isEmpty ⟨none⟩ = true) ∧
    (∀ (a : Actor) (p : ActorPatch), migrateActorData a = .ok p →
      migrateActorData (a.applyPatch p) = .ok noopActorPatch ∧
      noopActorPatch.isEmpty = false ∧
      (a.applyPatch p).applyPatch noopActorPatch = a.applyPatch p) ∧
    (∀ (s : Scene) (p : ScenePatch), migrateSceneData s = .ok p →
      migrateSceneData (s.applyPatch p) = .ok p ∧
      p.isEmpty = false ∧
      (s.applyPatch p).applyPatch p = s.applyPatch p) := by
  refine ⟨?_, ?_, ?_⟩
  · intro i p h
    exact ⟨migrateItemData_idem i p h, rfl⟩
  · intro a p h
    refine ⟨migrateActorData_second a p h, rfl, ?_⟩
    exact applied_applyPatch_noop a p (migrateActorData_groups a p h)
  · intro s p h
    exact ⟨migrateSceneData_second s p h, rfl, rfl⟩

/-- Witness for the amended C1 on a stale item, a rich actor and a
one-token scene. -/
theorem second_run_noop_witness :
    migrateItemData (qualityStale.applyPatch ⟨some ⟨some defaultAction, none⟩⟩) =
      .ok ⟨none⟩ ∧
    migrateActorData (actorRich.applyPatch actorRichPatch) = .ok noopActorPatch ∧
    noopActorPatch.isEmpty = false ∧
    migrateSceneData
      (Scene.applyPatch ⟨[⟨some "a1", true, none, true⟩]⟩ ⟨[⟨some "a1", true, none, true⟩]⟩) =
      .ok ⟨[⟨some "a1", true, none, true⟩]⟩ :=
  ⟨(second_run_noop.1 qualityStale ⟨some ⟨some defaultAction, none⟩⟩ rfl).1,
   (second_run_noop.2.1 actorRich actorRichPatch rfl).1,
   (second_run_noop.2.1 actorRich actorRichPatch rfl).2.1,
   (second_run_noop.2.2 ⟨[⟨some "a1", true, none, true⟩]⟩ ⟨[⟨some "a1", true, none, true⟩]⟩
     rfl).1⟩
